import Mathlib

set_option maxHeartbeats 1000000

namespace Envalid

/-- JS runtime values relevant to the envalid core: `undefined`, `null`, booleans,
integer numbers, strings, and the module-private test-only symbol
(`Symbol('envalid - test only')`, the unforgeable sentinel). Structural equality
on this type models JS strict equality for these primitive values. -/
inductive Value where
  | undefined
  | null
  | bool (b : Bool)
  | num (n : Int)
  | str (s : String)
  | sym
  deriving DecidableEq, Repr

/-- The value stored in a spec's `choices` field. JS allows any value there;
`validateVar` tests the field for truthiness and then for being an array.
`arr` is a JS array of values; `nonArr` is any non-array value. -/
inductive ChoicesVal where
  | arr (l : List Value)
  | nonArr (v : Value)
  deriving DecidableEq, Repr

/-- Nullish means `undefined` or `null`, the values the `??` operator skips over. -/
def Value.isNullish : Value → Bool
  | .undefined => true
  | .null => true
  | _ => false

/-- JS truthiness for `Value`. -/
def Value.truthy : Value → Bool
  | .undefined => false
  | .null => false
  | .bool b => b
  | .num n => decide (n ≠ 0)
  | .str s => decide (s ≠ "")
  | .sym => true

/-- JS truthiness of a `choices` field value: arrays are objects, hence truthy. -/
def ChoicesVal.truthy : ChoicesVal → Bool
  | .arr _ => true
  | .nonArr v => v.truthy

/-- The nullish-coalescing operator `a ?? b`. -/
def nullishOr (a b : Value) : Value :=
  if a.isNullish then b else a

/-- JS string conversion of a `Value`, as performed by template literals. -/
def Value.toDisplay : Value → String
  | .undefined => "undefined"
  | .null => "null"
  | .bool b => if b then "true" else "false"
  | .num n => toString n
  | .str s => s
  | .sym => "Symbol(envalid - test only)"

/-- The throwable values the core produces: `EnvError` and its subclass
`EnvMissingError` (from './errors'), plus the built-in `TypeError`. -/
inductive ErrVal where
  | envError (msg : String)
  | envMissingError (msg : String)
  | typeError (msg : String)
  deriving DecidableEq, Repr

/-- One variable's spec object as consumed by `validateVar` and `cleanEnv`.
`_parse` is `none` when the field is absent or not a function (the code only
tests `typeof spec._parse !== 'function'`). Every other `Option` field is
`none` exactly when the property is not declared on the object
(`hasOwnProperty` false); `some .undefined` models a property explicitly set to
`undefined`. -/
structure Spec where
  _parse : Option (Value → Except ErrVal Value)
  default : Option Value
  devDefault : Option Value
  choices : Option ChoicesVal
  desc : Option String
  «example» : Option String
  docs : Option String

/-- Reading `spec.default` as a JS property: an undeclared property reads as
`undefined`. -/
def Spec.defaultRead (s : Spec) : Value := s.default.getD .undefined

/-- Reading `spec.devDefault` as a JS property. -/
def Spec.devDefaultRead (s : Spec) : Value := s.devDefault.getD .undefined

/-- Message of the malformed-spec `EnvError` in `validateVar`. -/
def invalidSpecMsg (name : String) : String :=
  "Invalid spec for \"" ++ name ++ "\""

/-- Message of the `TypeError` thrown when a truthy `choices` is not an array. -/
def choicesTypeMsg (name : String) : String :=
  "\"choices\" must be an array (in spec for \"" ++ name ++ "\")"

/-- Message of the `EnvError` thrown on a choice violation; `spec.choices`
is stringified the way a JS template literal stringifies an array. -/
def notInChoicesMsg (value : Value) (l : List Value) : String :=
  "Value \"" ++ value.toDisplay ++ "\" not in choices [" ++
    String.intercalate "," (l.map Value.toDisplay) ++ "]"

/-- Message of the `EnvError` thrown when the parsed value is nullish. -/
def invalidValueMsg (name : String) : String :=
  "Invalid value for env var \"" ++ name ++ "\""

/-- The tail of `validateVar`: `if (value == null) throw new EnvError(...); return value`.
Loose equality `== null` holds exactly for `null` and `undefined`. -/
def finishValue (name : String) (value : Value) : Except ErrVal Value :=
  if value = .null ∨ value = .undefined then .error (.envError (invalidValueMsg name))
  else .ok value

/-- `validateVar` from the source: reject a non-callable `_parse`; run the
parser (its own thrown errors propagate); if `spec.choices` is truthy, demand
an array and membership of the parsed value; finally reject a nullish parsed
value. An absent or falsy `choices` field skips the choices checks, because
the code guards them with `if (spec.choices)`. -/
def validateVar (name : String) (spec : Spec) (rawValue : Value) : Except ErrVal Value :=
  match spec._parse with
  | none => .error (.envError (invalidSpecMsg name))
  | some parse =>
    match parse rawValue with
    | .error e => .error e
    | .ok value =>
      match spec.choices with
      | none => finishValue name value
      | some c =>
        if c.truthy then
          match c with
          | .nonArr _ => .error (.typeError (choicesTypeMsg name))
          | .arr l =>
            if value ∈ l then finishValue name value
            else .error (.envError (notInChoicesMsg value l))
        else finishValue name value

/-- `formatSpecDescription` from the source. The JS tests `spec.example ?`
and `spec.docs ?` are truthiness tests, so an empty string declared there
behaves like an absent field; `${spec.desc}` stringifies an undeclared `desc`
as the string "undefined". -/
def formatSpecDescription (spec : Spec) : String :=
  let egText := match spec.«example» with
    | some e => if e = "" then "" else " (eg. \"" ++ e ++ "\")"
    | none => ""
  let docsText := match spec.docs with
    | some d => if d = "" then "" else ". See " ++ d
    | none => ""
  let descText := match spec.desc with
    | some s => s
    | none => "undefined"
  descText ++ egText ++ docsText

/-- A raw environment object: association list in key-insertion order. -/
abbrev Env := List (String × Value)

/-- First-match lookup of a JS object property. -/
def objLookup {α : Type} : List (String × α) → String → Option α
  | [], _ => none
  | (k', v) :: rest, k => if k' = k then some v else objLookup rest k

/-- JS property assignment `o[k] = v` on a plain object: updates an existing
entry in place, else appends a new entry (JS key-insertion order). -/
def objSet {α : Type} : List (String × α) → String → α → List (String × α)
  | [], k, v => [(k, v)]
  | (k', v') :: rest, k, v =>
    if k' = k then (k, v) :: rest else (k', v') :: objSet rest k v

/-- `readRawEnvValue(env, k)` from the source: a plain property read; an
absent key reads as `undefined`. -/
def readRawEnvValue (env : Env) (k : String) : Value :=
  match objLookup env k with
  | some v => v
  | none => .undefined

/-- `isTestOnlySymbol` from the source: strict equality with the module's
private symbol. -/
def isTestOnlySymbol (v : Value) : Bool := decide (v = Value.sym)

/-- `testOnly` from the source. It reads `process.env.NODE_ENV` (the ambient
process environment at call time), passed here explicitly as `processNodeEnv`. -/
def testOnly (processNodeEnv : Value) (defaultValueForTests : Value) : Value :=
  if processNodeEnv = .str "test" then defaultValueForTests else .sym

/-- The loop-body local `usingDevDefault`:
`rawNodeEnv !== 'production' && spec.hasOwnProperty('devDefault')`. -/
def usingDevDefaultB (rawNodeEnv : Value) (spec : Spec) : Bool :=
  decide (rawNodeEnv ≠ Value.str "production") && spec.devDefault.isSome

/-- The loop-body local `devDefault`:
`usingDevDefault ? spec.devDefault : undefined`. -/
def devDefaultVal (rawNodeEnv : Value) (spec : Spec) : Value :=
  if usingDevDefaultB rawNodeEnv spec then spec.devDefaultRead else .undefined

/-- The loop-body local `rawValue`:
`readRawEnvValue(environment, k) ?? (devDefault === undefined ? spec.default : devDefault)`. -/
def resolveRawValue (rawNodeEnv : Value) (environment : Env) (k : String) (spec : Spec) : Value :=
  nullishOr (readRawEnvValue environment k)
    (if devDefaultVal rawNodeEnv spec = .undefined then spec.defaultRead
     else devDefaultVal rawNodeEnv spec)

/-- The loop-body local `usingFalsyDefault`:
`(spec.hasOwnProperty('default') && spec.default === rawValue) ||
 (usingDevDefault && devDefault === rawValue)`. -/
def usingFalsyDefaultB (rawNodeEnv : Value) (environment : Env) (k : String) (spec : Spec) : Bool :=
  (spec.default.isSome &&
    decide (spec.defaultRead = resolveRawValue rawNodeEnv environment k spec)) ||
  (usingDevDefaultB rawNodeEnv spec &&
    decide (devDefaultVal rawNodeEnv spec = resolveRawValue rawNodeEnv environment k spec))

/-- The `try` block of the per-key loop in `cleanEnv`: `.error e` is the
thrown error; `.ok none` means no assignment happened (the falsy-default skip);
`.ok (some v)` means `output[k] = v`. -/
def processKey (rawNodeEnv : Value) (environment : Env) (k : String) (spec : Spec) :
    Except ErrVal (Option Value) :=
  let rawValue := resolveRawValue rawNodeEnv environment k spec
  if isTestOnlySymbol rawValue then
    .error (.envMissingError (formatSpecDescription spec))
  else if rawValue = .undefined then
    if usingFalsyDefaultB rawNodeEnv environment k spec then .ok none
    else .error (.envMissingError (formatSpecDescription spec))
  else
    (validateVar k spec rawValue).map some

/-- The `for (const k of varKeys)` loop of `cleanEnv`, with the `output` and
`errors` objects threaded as accumulators. When `reporterNull` is true
(`options.reporter === null`), the catch rethrows: the first error ends the
loop; otherwise every error is recorded in `errors[k]`. -/
def runKeys (reporterNull : Bool) (rawNodeEnv : Value) (environment : Env) :
    List (String × Spec) → List (String × Value) → List (String × ErrVal) →
    Except ErrVal (List (String × Value) × List (String × ErrVal))
  | [], out, errs => .ok (out, errs)
  | (k, spec) :: rest, out, errs =>
    match processKey rawNodeEnv environment k spec with
    | .ok none => runKeys reporterNull rawNodeEnv environment rest out errs
    | .ok (some v) => runKeys reporterNull rawNodeEnv environment rest (objSet out k v) errs
    | .error e =>
      if reporterNull then .error e
      else runKeys reporterNull rawNodeEnv environment rest out (objSet errs k e)

/-- What a reporter call does: return normally, throw, or end the process. -/
inductive ReporterEffect where
  | ret
  | throwErr (e : ErrVal)
  | exitProc
  deriving Repr

/-- A reporter function receives `{errors, env}`. -/
abbrev Reporter := List (String × ErrVal) → List (String × Value) → ReporterEffect

/-- The `reporter` option: absent, explicitly `null`, or a function. -/
inductive ReporterOpt where
  | unset
  | null
  | fn (r : Reporter)

/-- Modelled from the spec: the default reporter implementation lives in
'./reporter', which is not part of the included sources. Per the spec
(Reporter Contract): if `errors` is non-empty it makes the failures visible
and terminates the consuming process; if `errors` is empty it is a no-op. -/
def defaultReporter : Reporter := fun errors _env =>
  if errors.isEmpty then .ret else .exitProc

/-- A middleware stage: `(validatedObject, rawEnvironment) -> validatedObject'`. -/
abbrev Middleware := List (String × Value) → Env → List (String × Value)

/-- Modelled from the spec: the built-in default middleware catalog lives in
'./middleware', which is not part of the included sources. Per the spec
(Middleware Contract), it is "an ordered catalog of standard enrichments
(e.g., computed convenience boolean accessors for common deployment-mode
checks)"; modelled here as one stage adding `isProduction`/`isTest`/`isDev`
accessors computed from the raw environment's mode signal. -/
def accessorMiddleware : Middleware := fun acc environment =>
  let nodeEnv := readRawEnvValue environment "NODE_ENV"
  objSet (objSet (objSet acc
      "isProduction" (Value.bool (decide (nodeEnv = Value.str "production"))))
      "isTest" (Value.bool (decide (nodeEnv = Value.str "test"))))
      "isDev" (Value.bool (decide (nodeEnv ≠ Value.str "production") &&
        decide (nodeEnv ≠ Value.str "test")))

/-- Modelled from the spec: the default middleware catalog as an ordered list. -/
def defaultMiddlewares : List Middleware := [accessorMiddleware]

/-- The recognized `options` fields of `cleanEnv`. `middleware : none` models
an options object without a `middleware` property (so
`options.middleware?.length` is undefined). -/
structure CleanOptions where
  reporter : ReporterOpt
  middleware : Option (List Middleware)

/-- `options.reporter === null`. -/
def reporterIsNull (o : CleanOptions) : Bool :=
  match o.reporter with
  | .null => true
  | _ => false

/-- A JS object together with its frozen flag; `Object.freeze` sets the flag. -/
structure JSObject where
  entries : List (String × Value)
  frozen : Bool
  deriving DecidableEq, Repr

/-- `Object.freeze(o)`. -/
def freezeObj (entries : List (String × Value)) : JSObject := ⟨entries, true⟩

/-- Non-strict-mode JS assignment `o[k] = v`: silently a no-op on a frozen
object. -/
def objWrite (o : JSObject) (k : String) (v : Value) : JSObject :=
  if o.frozen then o else ⟨objSet o.entries k v, o.frozen⟩

/-- Reading `o[k]`. -/
def objRead (o : JSObject) (k : String) : Value :=
  match objLookup o.entries k with
  | some v => v
  | none => .undefined

/-- How one call to `cleanEnv` ends: with a thrown error, with the process
terminated by the default reporter, or with a returned (frozen) object. -/
inductive CleanOutcome where
  | thrown (e : ErrVal)
  | exited
  | returned (o : JSObject)
  deriving DecidableEq, Repr

/-- A record of the one reporter invocation `reporter({errors, env: output})`:
whether the default reporter was the one called, and the two arguments. -/
structure ReporterCall where
  usedDefault : Bool
  errors : List (String × ErrVal)
  env : List (String × Value)
  deriving DecidableEq, Repr

/-- The observable result of a `cleanEnv` call: its outcome, plus the record
of the reporter invocation (`none` when the call threw before reaching the
reporter). -/
structure CleanResult where
  outcome : CleanOutcome
  reporterCall : Option ReporterCall
  deriving DecidableEq, Repr

/-- `options.middleware?.length ? reduce : skip`: the middleware application
step of `cleanEnv`. -/
def applyMiddleware (mwOpt : Option (List Middleware))
    (output : List (String × Value)) (environment : Env) : List (String × Value) :=
  match mwOpt with
  | none => output
  | some mws =>
    if mws.length ≠ 0 then mws.foldl (fun acc mw => mw acc environment) output
    else output

/-- The tail of `cleanEnv` once the loop has completed with `output` and
`errors`: invoke `options.reporter || defaultReporter` once with
`{errors, env: output}`, then apply middleware and freeze. -/
def reportAndFinish (options : CleanOptions) (environment : Env)
    (output : List (String × Value)) (errors : List (String × ErrVal)) : CleanResult :=
  let usedDefault := match options.reporter with
    | .fn _ => false
    | _ => true
  let reporterFn := match options.reporter with
    | .fn r => r
    | _ => defaultReporter
  let call := some (ReporterCall.mk usedDefault errors output)
  match reporterFn errors output with
  | .throwErr e => ⟨.thrown e, call⟩
  | .exitProc => ⟨.exited, call⟩
  | .ret =>
    ⟨.returned (freezeObj (applyMiddleware options.middleware output environment)), call⟩

/-- `cleanEnv` from the source. `optionsArg = none` models calling without the
third argument, in which case the JS default parameter
`{ middleware: defaultMiddlewares }` applies (a supplied options object keeps
exactly its own fields). The mode signal is `readRawEnvValue(environment, 'NODE_ENV')`;
the loop is `runKeys`; then the reporter step, middleware application and
`Object.freeze` are `reportAndFinish`. -/
def cleanEnv (environment : Env) (specs : List (String × Spec))
    (optionsArg : Option CleanOptions) : CleanResult :=
  let options := match optionsArg with
    | some o => o
    | none => ⟨ReporterOpt.unset, some defaultMiddlewares⟩
  let rawNodeEnv := readRawEnvValue environment "NODE_ENV"
  match runKeys (reporterIsNull options) rawNodeEnv environment specs [] [] with
  | .error e => ⟨.thrown e, none⟩
  | .ok (output, errors) => reportAndFinish options environment output errors

/-- A spec whose parser accepts any value unchanged (like `str()` on strings). -/
def okPassthrough : Value → Except ErrVal Value := fun v => Except.ok v

/-- A parser that rejects every input, as a strict built-in validator does on
a value outside its domain. -/
def rejectingParse : Value → Except ErrVal Value := fun _ =>
  Except.error (ErrVal.envError "bad")

/-- Spec with a regular default `"x"` and a devDefault explicitly declared
`undefined`. -/
def specC1 : Spec := ⟨some okPassthrough, some (.str "x"), some .undefined, none, none, none, none⟩

/-- Spec whose declared `choices` field is the number `0`: declared, not an
array, and falsy. -/
def specC3 : Spec :=
  ⟨some okPassthrough, none, none, some (ChoicesVal.nonArr (.num 0)), none, none, none⟩

/-- Spec whose `_parse` field is not a function. -/
def specC3w : Spec := ⟨none, none, none, none, none, none, none⟩

/-- Spec with the falsy default `""` and a parser that rejects it. -/
def specC4 : Spec := ⟨some rejectingParse, some (.str ""), none, none, none, none, none⟩

/-- Spec with the falsy default `""` and a passthrough parser. -/
def specC4w : Spec := ⟨some okPassthrough, some (.str ""), none, none, none, none, none⟩

/-- A plain required spec with a passthrough parser and no defaults. -/
def specPlain : Spec := ⟨some okPassthrough, none, none, none, none, none, none⟩

/-- Spec with a devDefault explicitly declared `undefined` and no regular
default. -/
def specC10 : Spec := ⟨some okPassthrough, none, some .undefined, none, none, none, none⟩

/-- The choices gate of `validateVar` passes the parsed value through: no
`choices` declared, a falsy `choices` value, or membership in a declared
array. -/
def choicesPassB (spec : Spec) (value : Value) : Bool :=
  match spec.choices with
  | none => true
  | some c =>
    if c.truthy then
      match c with
      | .arr l => decide (value ∈ l)
      | .nonArr _ => false
    else true

theorem objLookup_objSet_self {α : Type} (m : List (String × α)) (k : String) (v : α) :
    objLookup (objSet m k v) k = some v := by
  induction m with
  | nil => simp [objSet, objLookup]
  | cons hd tl ih =>
    obtain ⟨a, b⟩ := hd
    by_cases h : a = k
    · subst h
      simp [objSet, objLookup]
    · simp [objSet, objLookup, h, ih]

theorem objLookup_objSet_ne {α : Type} (m : List (String × α)) (k k' : String) (v : α)
    (h : k' ≠ k) : objLookup (objSet m k v) k' = objLookup m k' := by
  induction m with
  | nil => simp [objSet, objLookup, Ne.symm h]
  | cons hd tl ih =>
    obtain ⟨a, b⟩ := hd
    by_cases ha : a = k
    · subst ha
      simp [objSet, objLookup, Ne.symm h]
    · by_cases ha' : a = k'
      · subst ha'
        simp [objSet, objLookup, ha]
      · simp [objSet, objLookup, ha, ha', ih]

theorem mem_keys_objSet {α : Type} (m : List (String × α)) (k k' : String) (v : α) :
    k' ∈ (objSet m k v).map Prod.fst ↔ k' = k ∨ k' ∈ m.map Prod.fst := by
  induction m with
  | nil => simp [objSet]
  | cons hd tl ih =>
    obtain ⟨a, b⟩ := hd
    by_cases ha : a = k
    · subst ha
      simp [objSet]
    · simp [objSet, ha, ih]
      tauto

theorem runKeys_false_spec (n : Value) (environment : Env) :
    ∀ (specs : List (String × Spec)) (out0 : List (String × Value))
      (errs0 : List (String × ErrVal)),
    (specs.map Prod.fst).Nodup →
    (∀ k, k ∈ specs.map Prod.fst → k ∉ out0.map Prod.fst ∧ k ∉ errs0.map Prod.fst) →
    (∀ k, k ∈ out0.map Prod.fst → k ∉ errs0.map Prod.fst) →
    ∃ out errs,
      runKeys false n environment specs out0 errs0 = .ok (out, errs) ∧
      (∀ k, k ∉ specs.map Prod.fst →
        objLookup out k = objLookup out0 k ∧ objLookup errs k = objLookup errs0 k) ∧
      (∀ k, k ∈ out.map Prod.fst → k ∈ out0.map Prod.fst ∨ k ∈ specs.map Prod.fst) ∧
      (∀ k, k ∈ errs.map Prod.fst → k ∈ errs0.map Prod.fst ∨ k ∈ specs.map Prod.fst) ∧
      (∀ k, k ∈ out.map Prod.fst → k ∉ errs.map Prod.fst) ∧
      (∀ k s e, (k, s) ∈ specs → processKey n environment k s = .error e →
        objLookup errs k = some e) ∧
      (∀ k s v, (k, s) ∈ specs → processKey n environment k s = .ok (some v) →
        objLookup out k = some v) := by
  intro specs
  induction specs with
  | nil =>
    intro out0 errs0 _ _ hdisj
    refine ⟨out0, errs0, rfl, fun k _ => ⟨rfl, rfl⟩, fun k h => Or.inl h,
      fun k h => Or.inl h, hdisj, ?_, ?_⟩
    · intro k s e hmem _
      exact absurd hmem (List.not_mem_nil _)
    · intro k s v hmem _
      exact absurd hmem (List.not_mem_nil _)
  | cons hd rest ih =>
    obtain ⟨k0, s0⟩ := hd
    intro out0 errs0 hnd hfresh hdisj
    rw [List.map_cons] at hnd
    obtain ⟨hk0, hnd'⟩ := List.nodup_cons.mp hnd
    have hfresh0 := hfresh k0 (by simp)
    cases hpk : processKey n environment k0 s0 with
    | ok r =>
      cases r with
      | none =>
        obtain ⟨out, errs, heq, hP1, hP2, hP3, hP4, hP5, hP6⟩ :=
          ih out0 errs0 hnd' (fun k hk => hfresh k (by simp [hk])) hdisj
        refine ⟨out, errs, ?_, ?_, ?_, ?_, hP4, ?_, ?_⟩
        · simpa [runKeys, hpk] using heq
        · intro k hk
          exact hP1 k (fun hmem => hk (by simp [hmem]))
        · intro k hk
          rcases hP2 k hk with h | h
          · exact Or.inl h
          · exact Or.inr (by simp [h])
        · intro k hk
          rcases hP3 k hk with h | h
          · exact Or.inl h
          · exact Or.inr (by simp [h])
        · intro k s e hmem herr
          rcases List.mem_cons.mp hmem with hhd | htl
          · injection hhd with h1 h2
            subst h1; subst h2
            rw [hpk] at herr
            exact absurd herr (by simp)
          · exact hP5 k s e htl herr
        · intro k s v hmem hv
          rcases List.mem_cons.mp hmem with hhd | htl
          · injection hhd with h1 h2
            subst h1; subst h2
            rw [hpk] at hv
            exact absurd hv (by simp)
          · exact hP6 k s v htl hv
      | some v0 =>
        have hfr : ∀ k, k ∈ rest.map Prod.fst →
            k ∉ (objSet out0 k0 v0).map Prod.fst ∧ k ∉ errs0.map Prod.fst := by
          intro k hk
          have hne : k ≠ k0 := fun h => hk0 (h ▸ hk)
          have hf := hfresh k (by simp [hk])
          refine ⟨fun hx => ?_, hf.2⟩
          rcases (mem_keys_objSet out0 k0 k v0).mp hx with h | h
          · exact hne h
          · exact hf.1 h
        have hdj : ∀ k, k ∈ (objSet out0 k0 v0).map Prod.fst →
            k ∉ errs0.map Prod.fst := by
          intro k hx
          rcases (mem_keys_objSet out0 k0 k v0).mp hx with h | h
          · subst h; exact hfresh0.2
          · exact hdisj k h
        obtain ⟨out, errs, heq, hP1, hP2, hP3, hP4, hP5, hP6⟩ :=
          ih (objSet out0 k0 v0) errs0 hnd' hfr hdj
        refine ⟨out, errs, ?_, ?_, ?_, ?_, hP4, ?_, ?_⟩
        · simpa [runKeys, hpk] using heq
        · intro k hk
          have hne : k ≠ k0 := fun h => hk (by simp [h])
          have hrest : k ∉ rest.map Prod.fst := fun h => hk (by simp [h])
          obtain ⟨h1, h2⟩ := hP1 k hrest
          exact ⟨by rw [h1, objLookup_objSet_ne out0 k0 k v0 hne], h2⟩
        · intro k hk
          rcases hP2 k hk with h | h
          · rcases (mem_keys_objSet out0 k0 k v0).mp h with h | h
            · exact Or.inr (by simp [h])
            · exact Or.inl h
          · exact Or.inr (by simp [h])
        · intro k hk
          rcases hP3 k hk with h | h
          · exact Or.inl h
          · exact Or.inr (by simp [h])
        · intro k s e hmem herr
          rcases List.mem_cons.mp hmem with hhd | htl
          · injection hhd with h1 h2
            subst h1; subst h2
            rw [hpk] at herr
            exact absurd herr (by simp)
          · exact hP5 k s e htl herr
        · intro k s v hmem hv
          rcases List.mem_cons.mp hmem with hhd | htl
          · injection hhd with h1 h2
            subst h1; subst h2
            rw [hpk] at hv
            have hvv : v0 = v := by
              injection hv with h
              injection h
            obtain ⟨h1, _⟩ := hP1 k hk0
            rw [h1, objLookup_objSet_self, hvv]
          · exact hP6 k s v htl hv
    | error e0 =>
      have hfr : ∀ k, k ∈ rest.map Prod.fst →
          k ∉ out0.map Prod.fst ∧ k ∉ (objSet errs0 k0 e0).map Prod.fst := by
        intro k hk
        have hne : k ≠ k0 := fun h => hk0 (h ▸ hk)
        have hf := hfresh k (by simp [hk])
        refine ⟨hf.1, fun hx => ?_⟩
        rcases (mem_keys_objSet errs0 k0 k e0).mp hx with h | h
        · exact hne h
        · exact hf.2 h
      have hdj : ∀ k, k ∈ out0.map Prod.fst →
          k ∉ (objSet errs0 k0 e0).map Prod.fst := by
        intro k hx hmem
        rcases (mem_keys_objSet errs0 k0 k e0).mp hmem with h | h
        · subst h; exact hfresh0.1 hx
        · exact hdisj k hx h
      obtain ⟨out, errs, heq, hP1, hP2, hP3, hP4, hP5, hP6⟩ :=
        ih out0 (objSet errs0 k0 e0) hnd' hfr hdj
      refine ⟨out, errs, ?_, ?_, ?_, ?_, hP4, ?_, ?_⟩
      · simpa [runKeys, hpk] using heq
      · intro k hk
        have hne : k ≠ k0 := fun h => hk (by simp [h])
        have hrest : k ∉ rest.map Prod.fst := fun h => hk (by simp [h])
        obtain ⟨h1, h2⟩ := hP1 k hrest
        exact ⟨h1, by rw [h2, objLookup_objSet_ne errs0 k0 k e0 hne]⟩
      · intro k hk
        rcases hP2 k hk with h | h
        · exact Or.inl h
        · exact Or.inr (by simp [h])
      · intro k hk
        rcases hP3 k hk with h | h
        · rcases (mem_keys_objSet errs0 k0 k e0).mp h with h | h
          · exact Or.inr (by simp [h])
          · exact Or.inl h
        · exact Or.inr (by simp [h])
      · intro k s e hmem herr
        rcases List.mem_cons.mp hmem with hhd | htl
        · injection hhd with h1 h2
          subst h1; subst h2
          rw [hpk] at herr
          have hee : e0 = e := by
            injection herr
          obtain ⟨_, h2⟩ := hP1 k hk0
          rw [h2, objLookup_objSet_self, hee]
        · exact hP5 k s e htl herr
      · intro k s v hmem hv
        rcases List.mem_cons.mp hmem with hhd | htl
        · injection hhd with h1 h2
          subst h1; subst h2
          rw [hpk] at hv
          exact absurd hv (by simp)
        · exact hP6 k s v htl hv

theorem runKeys_true_errs_const (n : Value) (environment : Env) :
    ∀ (specs : List (String × Spec)) (out0 : List (String × Value))
      (errs0 : List (String × ErrVal)) (out : List (String × Value))
      (errs : List (String × ErrVal)),
    runKeys true n environment specs out0 errs0 = .ok (out, errs) → errs = errs0 := by
  intro specs
  induction specs with
  | nil =>
    intro out0 errs0 out errs h
    simp only [runKeys, Except.ok.injEq, Prod.mk.injEq] at h
    exact h.2.symm
  | cons hd rest ih =>
    obtain ⟨k0, s0⟩ := hd
    intro out0 errs0 out errs h
    cases hpk : processKey n environment k0 s0 with
    | ok r =>
      cases r with
      | none =>
        rw [runKeys, hpk] at h
        exact ih out0 errs0 out errs h
      | some v0 =>
        rw [runKeys, hpk] at h
        exact ih (objSet out0 k0 v0) errs0 out errs h
    | error e0 =>
      rw [runKeys, hpk] at h
      simp at h

theorem runKeys_true_first_error (n : Value) (environment : Env) :
    ∀ (pre : List (String × Spec)) (k : String) (s : Spec)
      (post : List (String × Spec)) (e : ErrVal) (out0 : List (String × Value))
      (errs0 : List (String × ErrVal)),
    (∀ k' s', (k', s') ∈ pre → ∃ r, processKey n environment k' s' = .ok r) →
    processKey n environment k s = .error e →
    runKeys true n environment (pre ++ (k, s) :: post) out0 errs0 = .error e := by
  intro pre
  induction pre with
  | nil =>
    intro k s post e out0 errs0 _ hfail
    rw [List.nil_append, runKeys, hfail]
    rfl
  | cons hd rest ih =>
    obtain ⟨k0, s0⟩ := hd
    intro k s post e out0 errs0 hpre hfail
    obtain ⟨r, hr⟩ := hpre k0 s0 (by simp)
    cases r with
    | none =>
      rw [List.cons_append, runKeys, hr]
      exact ih k s post e out0 errs0 (fun k' s' h => hpre k' s' (by simp [h])) hfail
    | some v0 =>
      rw [List.cons_append, runKeys, hr]
      exact ih k s post e (objSet out0 k0 v0) errs0
        (fun k' s' h => hpre k' s' (by simp [h])) hfail

theorem reporterIsNull_eq_false (o : CleanOptions) (h : o.reporter ≠ ReporterOpt.null) :
    reporterIsNull o = false := by
  cases hr : o.reporter with
  | unset => simp [reporterIsNull, hr]
  | null => exact absurd hr h
  | fn r => simp [reporterIsNull, hr]

theorem reporterIsNull_eq_true (o : CleanOptions) (h : o.reporter = ReporterOpt.null) :
    reporterIsNull o = true := by
  simp [reporterIsNull, h]

theorem validateVar_eq_finish (name : String) (spec : Spec) (rawValue : Value)
    (p : Value → Except ErrVal Value) (value : Value)
    (hp : spec._parse = some p) (hpv : p rawValue = Except.ok value)
    (hpass : choicesPassB spec value = true) :
    validateVar name spec rawValue = finishValue name value := by
  rcases hcs : spec.choices with _ | c
  · simp [validateVar, hp, hpv, hcs]
  · simp only [choicesPassB, hcs] at hpass
    by_cases ht : c.truthy = true
    · rcases c with l | v
      · rw [if_pos ht] at hpass
        have hmem : value ∈ l := by simpa using hpass
        simp [validateVar, hp, hpv, hcs, ChoicesVal.truthy, hmem]
      · rw [if_pos ht] at hpass
        exact absurd hpass (by simp)
    · simp [validateVar, hp, hpv, hcs, ht]

theorem finishValue_null (name : String) (value : Value)
    (h : value = Value.null ∨ value = Value.undefined) :
    finishValue name value = .error (.envError (invalidValueMsg name)) := by
  unfold finishValue
  rw [if_pos h]

theorem finishValue_ok (name : String) (value : Value)
    (h1 : value ≠ Value.null) (h2 : value ≠ Value.undefined) :
    finishValue name value = Except.ok value := by
  unfold finishValue
  rw [if_neg (by tauto)]

theorem reportAndFinish_returned_frozen (options : CleanOptions) (environment : Env)
    (output : List (String × Value)) (errors : List (String × ErrVal)) (o : JSObject)
    (h : (reportAndFinish options environment output errors).outcome =
      CleanOutcome.returned o) : o.frozen = true := by
  simp only [reportAndFinish] at h
  split at h
  · exact absurd h (by simp)
  · exact absurd h (by simp)
  · simp only [CleanOutcome.returned.injEq] at h
    subst h
    rfl

/-- C1 counterexample: with mode `"development"`, key `"K"` absent from the
environment, and a spec declaring `devDefault: undefined` alongside
`default: "x"`, the resolved raw value is the regular default `"x"`, not the
declared devDefault value `undefined` — so a declared devDefault does not
always take precedence over the regular default. -/
theorem C1_counterexample :
    Value.str "development" ≠ Value.str "production" ∧
    readRawEnvValue [] "K" = Value.undefined ∧
    specC1.devDefault = some Value.undefined ∧
    specC1.default = some (Value.str "x") ∧
    resolveRawValue (Value.str "development") [] "K" specC1 = Value.str "x" ∧
    Value.str "x" ≠ Value.undefined := by
  refine ⟨by decide, rfl, rfl, rfl, by decide, by decide⟩

/-- C1 (amended): in the raw-value resolution of `cleanEnv`, (a) if the
environment-mode signal is exactly `"production"` the devDefault is never
used (the resolution equals explicit value `??` regular default); (b) if the
mode is any other value, the explicit value is absent (nullish), and a
devDefault is declared with a value other than `undefined`, that devDefault
is the resolved value, taking precedence over the regular default (a
devDefault declared `undefined` instead defers to the regular default, see
`C10_undefined_devDefault`); (c) a non-nullish explicit environment value is
always the resolved value, taking precedence over both kinds of default. -/
theorem C1_devDefault_precedence (rawNodeEnv : Value) (environment : Env) (k : String)
    (spec : Spec) :
    (rawNodeEnv = Value.str "production" →
      resolveRawValue rawNodeEnv environment k spec =
        nullishOr (readRawEnvValue environment k) spec.defaultRead) ∧
    (∀ d : Value, (readRawEnvValue environment k).isNullish = true →
      rawNodeEnv ≠ Value.str "production" → spec.devDefault = some d → d ≠ Value.undefined →
      resolveRawValue rawNodeEnv environment k spec = d) ∧
    ((readRawEnvValue environment k).isNullish = false →
      resolveRawValue rawNodeEnv environment k spec = readRawEnvValue environment k) := by
  refine ⟨?_, ?_, ?_⟩
  · intro h
    subst h
    simp [resolveRawValue, devDefaultVal, usingDevDefaultB]
  · intro d hn hne hd hdu
    have h1 : usingDevDefaultB rawNodeEnv spec = true := by
      simp [usingDevDefaultB, hne, hd]
    have h2 : devDefaultVal rawNodeEnv spec = d := by
      simp [devDefaultVal, h1, Spec.devDefaultRead, hd]
    simp [resolveRawValue, h2, hdu, nullishOr, hn]
  · intro hn
    simp [resolveRawValue, nullishOr, hn]

/-- C1 witness: the production clause of `C1_devDefault_precedence` at a
concrete input. -/
theorem C1_witness :
    resolveRawValue (Value.str "production") [] "K" specC1 =
      nullishOr (readRawEnvValue [] "K") specC1.defaultRead :=
  (C1_devDefault_precedence (Value.str "production") [] "K" specC1).1 rfl

/-- C3 counterexample: `specC3` declares `choices` as the number `0` —
declared, not an array — yet `validateVar` succeeds instead of failing with
a TypeError, because the code guards the choices checks with the truthiness
test `if (spec.choices)` and `0` is falsy. -/
theorem C3_counterexample :
    specC3.choices = some (ChoicesVal.nonArr (Value.num 0)) ∧
    validateVar "K" specC3 (Value.str "v") = Except.ok (Value.str "v") :=
  ⟨rfl, rfl⟩

/-- C3 (amended): `validateVar` classifies failures as follows: EnvError when
the spec's parse function is not callable; TypeError when a declared choices
field is truthy and not an array (a declared falsy `choices` value disables
the choices checks entirely); EnvError when the parsed value is not a member
of a declared choices array; EnvError when, with the choices gate passed, the
parsed value is null/undefined after parsing; and otherwise the parsed value
is returned as the validated result. -/
theorem C3_validateVar_classification (name : String) (spec : Spec) (rawValue : Value) :
    (spec._parse = none →
      validateVar name spec rawValue = .error (.envError (invalidSpecMsg name))) ∧
    (∀ p value, spec._parse = some p → p rawValue = Except.ok value →
      ((∀ v, spec.choices = some (ChoicesVal.nonArr v) → Value.truthy v = true →
        validateVar name spec rawValue = .error (.typeError (choicesTypeMsg name))) ∧
       (∀ l, spec.choices = some (ChoicesVal.arr l) → value ∉ l →
        validateVar name spec rawValue = .error (.envError (notInChoicesMsg value l))) ∧
       (choicesPassB spec value = true →
        ((value = Value.null ∨ value = Value.undefined →
          validateVar name spec rawValue = .error (.envError (invalidValueMsg name))) ∧
         (value ≠ Value.null → value ≠ Value.undefined →
          validateVar name spec rawValue = Except.ok value))))) := by
  constructor
  · intro h
    simp [validateVar, h]
  · intro p value hp hpv
    refine ⟨?_, ?_, ?_⟩
    · intro v hc ht
      simp [validateVar, hp, hpv, hc, ChoicesVal.truthy, ht]
    · intro l hc hmem
      simp [validateVar, hp, hpv, hc, ChoicesVal.truthy, hmem]
    · intro hpass
      have hfin := validateVar_eq_finish name spec rawValue p value hp hpv hpass
      exact ⟨fun hnull => by rw [hfin, finishValue_null name value hnull],
        fun h1 h2 => by rw [hfin, finishValue_ok name value h1 h2]⟩

/-- C3 witness: the malformed-spec clause of `C3_validateVar_classification`
at a concrete input. -/
theorem C3_witness :
    validateVar "K" specC3w (Value.str "v") =
      .error (.envError (invalidSpecMsg "K")) :=
  (C3_validateVar_classification "K" specC3w (Value.str "v")).1 rfl

/-- C4 counterexample: `specC4` declares the falsy default `""` and a parser
that rejects it. The key resolves through the default mechanism
(`usingFalsyDefault` is true), yet an error-map entry for `"K"` appears and
the key is not assigned in the result — contradicting the claim that no
error-map entry appears and the key is assigned a parsed value. -/
theorem C4_counterexample :
    specC4.default = some (Value.str "") ∧
    Value.truthy (Value.str "") = false ∧
    readRawEnvValue [] "K" = Value.undefined ∧
    usingFalsyDefaultB (readRawEnvValue [] "NODE_ENV") [] "K" specC4 = true ∧
    cleanEnv [] [("K", specC4)] none =
      ⟨CleanOutcome.exited,
        some ⟨true, [("K", ErrVal.envError "bad")], []⟩⟩ := by
  refine ⟨rfl, by decide, rfl, by decide, by decide⟩

/-- C4 (amended): for a declared key whose explicit environment value is
absent and whose falsy declared default resolves through the default/
dev-default mechanism, the key is never treated as missing: if the resolved
value is (an explicitly declared) `undefined` the key is skipped with no
error; otherwise the key is handed to `validateVar` exactly like an explicit
value, so it is assigned the parsed value when parsing and validation
succeed (but a parser/choices failure on the default still produces an
error-map entry). -/
theorem C4_falsy_default_parsed (n : Value) (environment : Env) (k : String) (spec : Spec)
    (habs : readRawEnvValue environment k = Value.undefined)
    (hfd : usingFalsyDefaultB n environment k spec = true)
    (hfalsy : Value.truthy (resolveRawValue n environment k spec) = false) :
    (resolveRawValue n environment k spec = Value.undefined →
      processKey n environment k spec = Except.ok none) ∧
    (resolveRawValue n environment k spec ≠ Value.undefined →
      processKey n environment k spec =
        (validateVar k spec (resolveRawValue n environment k spec)).map some) := by
  have hne : resolveRawValue n environment k spec ≠ Value.sym := by
    intro h
    rw [h] at hfalsy
    exact absurd hfalsy (by decide)
  have hsym : isTestOnlySymbol (resolveRawValue n environment k spec) = false := by
    simp [isTestOnlySymbol, hne]
  constructor
  · intro hu
    simp [processKey, isTestOnlySymbol, hu, hfd]
  · intro hu
    simp [processKey, hsym, hu]

/-- C4 witness: the parsed-like-an-explicit-value clause of
`C4_falsy_default_parsed` at a concrete input (falsy default `""`,
passthrough parser). -/
theorem C4_witness :
    processKey (readRawEnvValue [] "NODE_ENV") [] "K" specC4w =
      (validateVar "K" specC4w
        (resolveRawValue (readRawEnvValue [] "NODE_ENV") [] "K" specC4w)).map some :=
  (C4_falsy_default_parsed (readRawEnvValue [] "NODE_ENV") [] "K" specC4w rfl (by decide)
    (by decide)).2 (by decide)

/-- C7: `testOnly(v)` returns `v` when the ambient environment-mode signal is
exactly `"test"` and the unforgeable sentinel otherwise; and any declared key
whose resolved raw value is the sentinel fails with an `EnvMissingError`
whose message is formatted (by `formatSpecDescription`) from the spec's
description/example/docs fields. -/
theorem C7_testOnly_sentinel (processNodeEnv v n : Value) (environment : Env) (k : String)
    (spec : Spec) :
    (processNodeEnv = Value.str "test" → testOnly processNodeEnv v = v) ∧
    (processNodeEnv ≠ Value.str "test" → testOnly processNodeEnv v = Value.sym) ∧
    (resolveRawValue n environment k spec = Value.sym →
      processKey n environment k spec =
        .error (.envMissingError (formatSpecDescription spec))) := by
  refine ⟨fun h => by simp [testOnly, h], fun h => by simp [testOnly, h], fun h => ?_⟩
  simp [processKey, h, isTestOnlySymbol]

/-- C7 witness: `C7_testOnly_sentinel` applied in test mode. -/
theorem C7_witness :
    testOnly (Value.str "test") (Value.str "stub") = Value.str "stub" :=
  (C7_testOnly_sentinel (Value.str "test") (Value.str "stub") Value.undefined [] "K"
    specPlain).1 rfl

/-- C10: in non-production mode, a devDefault explicitly declared `undefined`
does not shadow the regular default: the resolved raw value falls back to
`spec.default`; and when no regular default is declared either, the key is
skipped with no error (not reported missing). -/
theorem C10_undefined_devDefault (n : Value) (environment : Env) (k : String) (spec : Spec)
    (hprod : n ≠ Value.str "production")
    (hdd : spec.devDefault = some Value.undefined)
    (habs : readRawEnvValue environment k = Value.undefined) :
    resolveRawValue n environment k spec = spec.defaultRead ∧
    (spec.default = none → processKey n environment k spec = Except.ok none) := by
  have h1 : usingDevDefaultB n spec = true := by
    simp [usingDevDefaultB, hprod, hdd]
  have h2 : devDefaultVal n spec = Value.undefined := by
    simp [devDefaultVal, h1, Spec.devDefaultRead, hdd]
  have h3 : resolveRawValue n environment k spec = spec.defaultRead := by
    simp [resolveRawValue, h2, habs, nullishOr, Value.isNullish]
  refine ⟨h3, fun hdef => ?_⟩
  have h4 : resolveRawValue n environment k spec = Value.undefined := by
    rw [h3]
    simp [Spec.defaultRead, hdef]
  have h5 : usingFalsyDefaultB n environment k spec = true := by
    simp [usingFalsyDefaultB, h1, h2, h4]
  simp [processKey, h4, h5, isTestOnlySymbol]

/-- C10 witness: `C10_undefined_devDefault` at a concrete input (mode
`"development"`, empty environment, `devDefault: undefined`, no default). -/
theorem C10_witness :
    resolveRawValue (Value.str "development") [] "K" specC10 = specC10.defaultRead ∧
    processKey (Value.str "development") [] "K" specC10 = Except.ok none :=
  ⟨(C10_undefined_devDefault (Value.str "development") [] "K" specC10 (by decide) rfl
      rfl).1,
   (C10_undefined_devDefault (Value.str "development") [] "K" specC10 (by decide) rfl
      rfl).2 rfl⟩

/-- C2: when `options.reporter` is not `null`, the per-key loop of `cleanEnv`
never throws (`runKeys` returns `.ok`), every failing declared key is
recorded in the error map under that key, every successfully validated
declared key is assigned in the output map, the output and error maps have
disjoint key sets, and every key of either map is a declared key — so each
declared key ends up in exactly one of the two maps or in neither. -/
theorem C2_loop_aggregates (environment : Env) (specs : List (String × Spec))
    (opts : CleanOptions) (hrep : opts.reporter ≠ ReporterOpt.null)
    (hnd : (specs.map Prod.fst).Nodup) :
    ∃ out errs,
      runKeys (reporterIsNull opts) (readRawEnvValue environment "NODE_ENV")
        environment specs [] [] = .ok (out, errs) ∧
      (∀ k s e, (k, s) ∈ specs →
        processKey (readRawEnvValue environment "NODE_ENV") environment k s =
          .error e →
        objLookup errs k = some e) ∧
      (∀ k s v, (k, s) ∈ specs →
        processKey (readRawEnvValue environment "NODE_ENV") environment k s =
          .ok (some v) →
        objLookup out k = some v) ∧
      (∀ k, k ∈ out.map Prod.fst → k ∉ errs.map Prod.fst) ∧
      (∀ k, k ∈ out.map Prod.fst ∨ k ∈ errs.map Prod.fst → k ∈ specs.map Prod.fst) := by
  rw [reporterIsNull_eq_false opts hrep]
  obtain ⟨out, errs, heq, _, hP2, hP3, hP4, hP5, hP6⟩ :=
    runKeys_false_spec (readRawEnvValue environment "NODE_ENV") environment specs [] []
      hnd (by simp) (by simp)
  refine ⟨out, errs, heq, hP5, hP6, hP4, ?_⟩
  intro k hk
  rcases hk with h | h
  · rcases hP2 k h with h | h
    · simp at h
    · exact h
  · rcases hP3 k h with h | h
    · simp at h
    · exact h

/-- C2 witness: `C2_loop_aggregates` at a concrete input with one passing key
and one failing key. -/
theorem C2_witness :
    ∃ out errs,
      runKeys (reporterIsNull ⟨ReporterOpt.unset, none⟩)
        (readRawEnvValue [("A", Value.str "a")] "NODE_ENV")
        [("A", Value.str "a")] [("A", specPlain), ("B", specPlain)] [] [] =
        .ok (out, errs) ∧
      (∀ k s e, (k, s) ∈ [("A", specPlain), ("B", specPlain)] →
        processKey (readRawEnvValue [("A", Value.str "a")] "NODE_ENV")
          [("A", Value.str "a")] k s = .error e →
        objLookup errs k = some e) ∧
      (∀ k s v, (k, s) ∈ [("A", specPlain), ("B", specPlain)] →
        processKey (readRawEnvValue [("A", Value.str "a")] "NODE_ENV")
          [("A", Value.str "a")] k s = .ok (some v) →
        objLookup out k = some v) ∧
      (∀ k, k ∈ out.map Prod.fst → k ∉ errs.map Prod.fst) ∧
      (∀ k, k ∈ out.map Prod.fst ∨ k ∈ errs.map Prod.fst →
        k ∈ ([("A", specPlain), ("B", specPlain)].map Prod.fst)) :=
  C2_loop_aggregates [("A", Value.str "a")] [("A", specPlain), ("B", specPlain)]
    ⟨ReporterOpt.unset, none⟩ (fun h => ReporterOpt.noConfusion h) (by simp)

/-- C5: with `reporter: null` and at least one failing declared key,
`cleanEnv` throws synchronously the error of the first failing key in
declared-key order, with no reporter invocation; the result is the same for
every list of later declared keys, so no later key is evaluated. -/
theorem C5_null_reporter_throws_first (environment : Env) (opts : CleanOptions)
    (pre : List (String × Spec)) (k : String) (s : Spec) (post : List (String × Spec))
    (e : ErrVal) (hrep : opts.reporter = ReporterOpt.null)
    (hpre : ∀ k' s', (k', s') ∈ pre →
      ∃ r, processKey (readRawEnvValue environment "NODE_ENV") environment k' s' =
        Except.ok r)
    (hfail : processKey (readRawEnvValue environment "NODE_ENV") environment k s =
      Except.error e) :
    cleanEnv environment (pre ++ (k, s) :: post) (some opts) =
      ⟨CleanOutcome.thrown e, none⟩ := by
  have hrun : runKeys (reporterIsNull opts) (readRawEnvValue environment "NODE_ENV")
      environment (pre ++ (k, s) :: post) [] [] = .error e := by
    rw [reporterIsNull_eq_true opts hrep]
    exact runKeys_true_first_error (readRawEnvValue environment "NODE_ENV") environment
      pre k s post e [] [] hpre hfail
  simp [cleanEnv, hrun]

/-- C5 witness: `C5_null_reporter_throws_first` at a concrete input: key "A"
passes, key "B" is missing, key "C" comes later. -/
theorem C5_witness :
    cleanEnv [("A", Value.str "a")]
      ([("A", specPlain)] ++ ("B", specPlain) :: [("C", specPlain)])
      (some ⟨ReporterOpt.null, none⟩) =
      ⟨CleanOutcome.thrown (ErrVal.envMissingError "undefined"), none⟩ :=
  C5_null_reporter_throws_first [("A", Value.str "a")] ⟨ReporterOpt.null, none⟩
    [("A", specPlain)] "B" specPlain [("C", specPlain)]
    (ErrVal.envMissingError "undefined") rfl
    (by
      intro k' s' h
      simp only [List.mem_singleton, Prod.mk.injEq] at h
      obtain ⟨h1, h2⟩ := h
      subst h1
      subst h2
      exact ⟨some (Value.str "a"), rfl⟩)
    rfl

/-- C6 counterexample: with `reporter: null` and an empty spec set,
`cleanEnv` returns and the DEFAULT reporter is invoked once (with an empty
error map), because `options.reporter || defaultReporter` treats `null` as
falsy — so the reporting mechanism is not disabled entirely. -/
theorem C6_counterexample :
    (cleanEnv [] [] (some ⟨ReporterOpt.null, none⟩)).reporterCall =
      some ⟨true, [], []⟩ := by decide

/-- C6 (amended): with `reporter: null`, per-key failures bypass all
reporting — if `cleanEnv` throws, no reporter was invoked — but whenever
`cleanEnv` returns, the default reporter has been invoked exactly once with
an empty error map (necessarily empty, since any failure would have thrown),
on which it is a no-op; every reporter invocation under `reporter: null` is
of the default reporter with empty errors. -/
theorem C6_null_reporter_semantics (environment : Env) (specs : List (String × Spec))
    (opts : CleanOptions) (hrep : opts.reporter = ReporterOpt.null) :
    (∀ o, (cleanEnv environment specs (some opts)).outcome = CleanOutcome.returned o →
      ∃ out, (cleanEnv environment specs (some opts)).reporterCall =
        some ⟨true, [], out⟩) ∧
    (∀ c, (cleanEnv environment specs (some opts)).reporterCall = some c →
      c.usedDefault = true ∧ c.errors = []) ∧
    (∀ e, (cleanEnv environment specs (some opts)).outcome = CleanOutcome.thrown e →
      (cleanEnv environment specs (some opts)).reporterCall = none) := by
  have hnull := reporterIsNull_eq_true opts hrep
  cases hrun : runKeys (reporterIsNull opts) (readRawEnvValue environment "NODE_ENV")
      environment specs [] [] with
  | error e0 =>
    have hC : cleanEnv environment specs (some opts) = ⟨.thrown e0, none⟩ := by
      simp [cleanEnv, hrun]
    rw [hC]
    refine ⟨?_, ?_, ?_⟩
    · intro o h
      exact absurd h (by simp)
    · intro c h
      exact absurd h (by simp)
    · intro e _
      rfl
  | ok p =>
    obtain ⟨out, errs⟩ := p
    rw [hnull] at hrun
    have herrs : errs = [] :=
      runKeys_true_errs_const (readRawEnvValue environment "NODE_ENV") environment
        specs [] [] out errs hrun
    subst herrs
    have hC : cleanEnv environment specs (some opts) =
        ⟨CleanOutcome.returned
          (freezeObj (applyMiddleware opts.middleware out environment)),
          some ⟨true, [], out⟩⟩ := by
      simp [cleanEnv, hnull, hrun, reportAndFinish, hrep, defaultReporter]
    rw [hC]
    refine ⟨?_, ?_, ?_⟩
    · intro o _
      exact ⟨out, rfl⟩
    · intro c h
      injection h with h
      subst h
      exact ⟨rfl, rfl⟩
    · intro e h
      exact absurd h (by simp)

/-- C6 witness: `C6_null_reporter_semantics` at a concrete returning input:
the default reporter is recorded as invoked with an empty error map. -/
theorem C6_witness :
    ∃ out, (cleanEnv [] [] (some ⟨ReporterOpt.null, none⟩)).reporterCall =
      some ⟨true, [], out⟩ :=
  (C6_null_reporter_semantics [] [] ⟨ReporterOpt.null, none⟩ rfl).1 ⟨[], true⟩ (by decide)

/-- C8 counterexample: a supplied options object without a `middleware` field
applies NO middleware at all (empty result object), while the same call with
the options argument omitted entirely applies the built-in default catalog
(the result gains the accessor keys): the default catalog is not applied
whenever the middleware option is merely absent. -/
theorem C8_counterexample :
    (cleanEnv [] [] (some ⟨ReporterOpt.unset, none⟩)).outcome =
      CleanOutcome.returned ⟨[], true⟩ ∧
    (cleanEnv [] [] none).outcome =
      CleanOutcome.returned ⟨[("isProduction", Value.bool false),
        ("isTest", Value.bool false), ("isDev", Value.bool true)], true⟩ :=
  ⟨by decide, by decide⟩

/-- C8 (amended): when the whole options argument is omitted, the built-in
default middleware catalog is applied after reporting; when an options object
is supplied without a middleware field, no middleware is applied; when a
middleware sequence is supplied, its stages are applied after reporting in
the given order by a left fold, each stage receiving the previous stage's
output together with the original raw environment, and the final stage's
output (frozen) becomes the returned result. -/
theorem C8_middleware_application (environment : Env) (specs : List (String × Spec))
    (mws : List Middleware) (out : List (String × Value))
    (hrun : runKeys false (readRawEnvValue environment "NODE_ENV") environment
      specs [] [] = Except.ok (out, [])) :
    (cleanEnv environment specs none).outcome =
      CleanOutcome.returned
        ⟨defaultMiddlewares.foldl (fun acc mw => mw acc environment) out, true⟩ ∧
    (cleanEnv environment specs (some ⟨ReporterOpt.unset, none⟩)).outcome =
      CleanOutcome.returned ⟨out, true⟩ ∧
    (cleanEnv environment specs (some ⟨ReporterOpt.unset, some mws⟩)).outcome =
      CleanOutcome.returned
        ⟨mws.foldl (fun acc mw => mw acc environment) out, true⟩ := by
  have happly : ∀ l : List Middleware,
      applyMiddleware (some l) out environment =
        l.foldl (fun acc mw => mw acc environment) out := by
    intro l
    cases l with
    | nil => simp [applyMiddleware]
    | cons a t => simp [applyMiddleware]
  refine ⟨?_, ?_, ?_⟩
  · simp [cleanEnv, reporterIsNull, hrun, reportAndFinish, defaultReporter, happly,
      freezeObj]
  · simp [cleanEnv, reporterIsNull, hrun, reportAndFinish, defaultReporter,
      applyMiddleware, freezeObj]
  · simp [cleanEnv, reporterIsNull, hrun, reportAndFinish, defaultReporter, happly,
      freezeObj]

/-- C8 witness: `C8_middleware_application` at a concrete input (empty
environment and spec set, empty supplied middleware list). -/
theorem C8_witness :
    (cleanEnv [] [] none).outcome =
      CleanOutcome.returned ⟨[("isProduction", Value.bool false),
        ("isTest", Value.bool false), ("isDev", Value.bool true)], true⟩ ∧
    (cleanEnv [] [] (some ⟨ReporterOpt.unset, none⟩)).outcome =
      CleanOutcome.returned ⟨[], true⟩ ∧
    (cleanEnv [] [] (some ⟨ReporterOpt.unset, some ([] : List Middleware)⟩)).outcome =
      CleanOutcome.returned ⟨[], true⟩ :=
  C8_middleware_application [] [] [] [] rfl

theorem cleanEnv_returned_frozen (environment : Env) (specs : List (String × Spec))
    (optionsArg : Option CleanOptions) (o : JSObject)
    (h : (cleanEnv environment specs optionsArg).outcome = CleanOutcome.returned o) :
    o.frozen = true := by
  rcases optionsArg with _ | opts
  · rcases hrun : runKeys (reporterIsNull ⟨ReporterOpt.unset, some defaultMiddlewares⟩)
        (readRawEnvValue environment "NODE_ENV") environment specs [] [] with e | p
    · rw [show cleanEnv environment specs none = ⟨.thrown e, none⟩ from by
        simp [cleanEnv, hrun]] at h
      exact absurd h (by simp)
    · obtain ⟨out, errs⟩ := p
      rw [show cleanEnv environment specs none =
          reportAndFinish ⟨ReporterOpt.unset, some defaultMiddlewares⟩ environment out
            errs from by simp [cleanEnv, hrun]] at h
      exact reportAndFinish_returned_frozen _ _ _ _ _ h
  · rcases hrun : runKeys (reporterIsNull opts)
        (readRawEnvValue environment "NODE_ENV") environment specs [] [] with e | p
    · rw [show cleanEnv environment specs (some opts) = ⟨.thrown e, none⟩ from by
        simp [cleanEnv, hrun]] at h
      exact absurd h (by simp)
    · obtain ⟨out, errs⟩ := p
      rw [show cleanEnv environment specs (some opts) =
          reportAndFinish opts environment out errs from by simp [cleanEnv, hrun]] at h
      exact reportAndFinish_returned_frozen _ _ _ _ _ h

/-- C9: the object `cleanEnv` returns is frozen: a write to any key of it is
a silent no-op (the object is unchanged) and therefore has no effect on any
subsequent read. -/
theorem C9_frozen_result (environment : Env) (specs : List (String × Spec))
    (optionsArg : Option CleanOptions) (o : JSObject) (k k2 : String) (v : Value)
    (hret : (cleanEnv environment specs optionsArg).outcome = CleanOutcome.returned o) :
    objWrite o k v = o ∧ objRead (objWrite o k v) k2 = objRead o k2 := by
  have hfro : o.frozen = true :=
    cleanEnv_returned_frozen environment specs optionsArg o hret
  have hw : objWrite o k v = o := by
    simp [objWrite, hfro]
  exact ⟨hw, by rw [hw]⟩

/-- C9 witness: `C9_frozen_result` on the object returned by a concrete
`cleanEnv` call. -/
theorem C9_witness :
    objWrite ⟨[("isProduction", Value.bool false), ("isTest", Value.bool false),
      ("isDev", Value.bool true)], true⟩ "isDev" (Value.bool false) =
      ⟨[("isProduction", Value.bool false), ("isTest", Value.bool false),
        ("isDev", Value.bool true)], true⟩ ∧
    objRead (objWrite ⟨[("isProduction", Value.bool false), ("isTest", Value.bool false),
      ("isDev", Value.bool true)], true⟩ "isDev" (Value.bool false)) "isDev" =
      objRead ⟨[("isProduction", Value.bool false), ("isTest", Value.bool false),
        ("isDev", Value.bool true)], true⟩ "isDev" :=
  C9_frozen_result [] [] none ⟨[("isProduction", Value.bool false),
    ("isTest", Value.bool false), ("isDev", Value.bool true)], true⟩ "isDev"
    "isDev" (Value.bool false) (by decide)

end Envalid
